import Mathlib

/-!
Shallow embedding of the Workout-Log application (src/script.js).

JavaScript numbers are modelled as exact rationals extended with the
non-finite values NaN and the two infinities; `Number.isFinite` and the
`> 0` comparison get their JavaScript semantics on that type.
-/

/-- A JavaScript number: a finite value (modelled exactly as a rational)
or one of the non-finite values. -/
inductive JSNum where
  | finite (q : ℚ)
  | nan
  | posInf
  | negInf
deriving DecidableEq, Repr

/-- `Number.isFinite`. -/
def JSNum.isFinite : JSNum → Bool
  | .finite _ => true
  | _ => false

/-- The JavaScript comparison `x > 0` (false on NaN and -Infinity). -/
def JSNum.gtZero : JSNum → Bool
  | .finite q => decide (0 < q)
  | .posInf => true
  | _ => false

/-- The finite value carried by a `JSNum`; 0 on the non-finite values
(only ever used behind an `isFinite` check, mirroring the source which
constructs workouts only after `validInputs` passed). -/
def JSNum.toQ : JSNum → ℚ
  | .finite q => q
  | _ => 0

/-- The construction-time environment: `Date.now()` in milliseconds and
the pieces of `new Date()` that the code reads (`getMonth`, `getDate`),
plus the string the date serializes to under `JSON.stringify`. -/
structure Env where
  nowMs : Nat
  month : Fin 12
  day : Nat
  dateJson : String
deriving DecidableEq, Repr

/-- `id = (Date.now() + '').slice(-10)`: the last 10 characters of the
decimal string of the timestamp (the whole string when shorter). -/
def makeId (nowMs : Nat) : String :=
  let s := toString nowMs
  s.drop (s.length - 10)

/-- The `months` array used by `_setDescription`. -/
def months : List String :=
  ["January", "February", "March", "April", "May", "June", "July",
   "August", "September", "October", "November", "December"]

/-- `this.type[0].toUpperCase() + this.type.slice(1)`. -/
def capitalizeType (s : String) : String :=
  (s.take 1).toUpper ++ s.drop 1

/-- `_setDescription`: `"{Capitalized type} on {Month name} {day}"`. -/
def setDescription (ty : String) (env : Env) : String :=
  capitalizeType ty ++ " on " ++ months.get ⟨env.month.val, env.month.isLt⟩
    ++ " " ++ toString env.day

/-- The fields assigned by the `Workout` base class (`date`, `id`,
`coords`, `distance`, `duration`). -/
structure Workout where
  dateJson : String
  id : String
  coords : ℚ × ℚ
  distance : ℚ
  duration : ℚ
deriving DecidableEq, Repr

/-- A constructed entry: the `Running` or `Cycling` subclass with its
extra field, its derived metric (`pace` resp. `speed`) and the
description set at construction. -/
inductive Entry where
  | running (base : Workout) (cadence : ℚ) (pace : ℚ) (description : String)
  | cycling (base : Workout) (elevation : ℚ) (speed : ℚ) (description : String)
deriving DecidableEq, Repr

/-- `calculatePace`: `this.pace = this.duration / this.distance`. -/
def calculatePace (duration distance : ℚ) : ℚ :=
  duration / distance

/-- `calculateSpeed`: `this.speed = this.distance / this.duration / 60`. -/
def calculateSpeed (distance duration : ℚ) : ℚ :=
  distance / duration / 60

/-- The `Workout` base constructor together with the class-field
initializers for `date` and `id`. -/
def mkWorkout (env : Env) (coords : ℚ × ℚ) (distance duration : ℚ) : Workout :=
  { dateJson := env.dateJson
    id := makeId env.nowMs
    coords := coords
    distance := distance
    duration := duration }

/-- The `Running` constructor: store `cadence`, run `calculatePace`,
then `_setDescription` with `type = 'running'`. -/
def mkRunning (env : Env) (coords : ℚ × ℚ) (distance duration cadence : ℚ) : Entry :=
  .running (mkWorkout env coords distance duration) cadence
    (calculatePace duration distance) (setDescription "running" env)

/-- The `Cycling` constructor: store `elevation`, run `calculateSpeed`,
then `_setDescription` with `type = 'cycling'`. -/
def mkCycling (env : Env) (coords : ℚ × ℚ) (distance duration elevation : ℚ) : Entry :=
  .cycling (mkWorkout env coords distance duration) elevation
    (calculateSpeed distance duration) (setDescription "cycling" env)

/-- The `id` of an entry (inherited from the base class). -/
def Entry.id : Entry → String
  | .running b _ _ _ => b.id
  | .cycling b _ _ _ => b.id

/-- The coordinates of an entry. -/
def Entry.coords : Entry → ℚ × ℚ
  | .running b _ _ _ => b.coords
  | .cycling b _ _ _ => b.coords

/-- The derived pace of a Running entry (spec name `paceMinPerKm`);
absent on Cycling. -/
def Entry.paceMinPerKm : Entry → Option ℚ
  | .running _ _ p _ => some p
  | .cycling _ _ _ _ => none

/-- The derived speed of a Cycling entry (spec name `speedKmPerH`);
absent on Running. -/
def Entry.speedKmPerH : Entry → Option ℚ
  | .running _ _ _ _ => none
  | .cycling _ _ s _ => some s

/-!
Persistence. `localStorage` is used with the single key `'workouts'`;
we model the content of that key. A stored value is either absent
(`getItem` returns null), a string that is not valid JSON (on which
`JSON.parse` throws a SyntaxError), or a string parsing to a JSON value.
-/

/-- A JSON value (JavaScript numbers again modelled as exact rationals;
`JSON.stringify` never emits non-finite numbers from this program). -/
inductive Json where
  | null
  | bool (b : Bool)
  | num (q : ℚ)
  | str (s : String)
  | arr (elems : List Json)
  | obj (fields : List (String × Json))

/-- JavaScript truthiness of a parsed JSON value (`if (!data) return`). -/
def Json.truthy : Json → Bool
  | .null => false
  | .bool b => b
  | .num q => decide (q ≠ 0)
  | .str s => decide (s ≠ "")
  | .arr _ => true
  | .obj _ => true

/-- Field lookup on a JSON object. -/
def Json.getField : Json → String → Option Json
  | .obj fields, k => fields.lookup k
  | _, _ => none

/-- Read a JSON value as a string. -/
def Json.asStr : Json → Option String
  | .str s => some s
  | _ => none

/-- Read a JSON value as a number. -/
def Json.asNum : Json → Option ℚ
  | .num q => some q
  | _ => none

/-- Read a JSON value as a coordinate pair `[lat, lng]`. -/
def Json.asCoords : Json → Option (ℚ × ℚ)
  | .arr [.num a, .num b] => some (a, b)
  | _ => none

/-- `JSON.stringify` applied to one workout object: its enumerable
fields in class initialization/assignment order. -/
def Entry.toJson : Entry → Json
  | .running b cadence pace description =>
      .obj [("date", .str b.dateJson), ("id", .str b.id),
            ("coords", .arr [.num b.coords.1, .num b.coords.2]),
            ("distance", .num b.distance), ("duration", .num b.duration),
            ("type", .str "running"), ("cadence", .num cadence),
            ("pace", .num pace), ("description", .str description)]
  | .cycling b elevation speed description =>
      .obj [("date", .str b.dateJson), ("id", .str b.id),
            ("coords", .arr [.num b.coords.1, .num b.coords.2]),
            ("distance", .num b.distance), ("duration", .num b.duration),
            ("type", .str "cycling"), ("elevation", .num elevation),
            ("speed", .num speed), ("description", .str description)]

/-- The plain-data record `JSON.parse` reconstructs for one workout
(restored entries carry the pre-computed derived fields as data; no
constructor logic re-runs). `none` when the value does not have the
shape this program ever persists. -/
def entryOfJson (j : Json) : Option Entry := do
  let dateJson ← (j.getField "date").bind Json.asStr
  let id ← (j.getField "id").bind Json.asStr
  let coords ← (j.getField "coords").bind Json.asCoords
  let distance ← (j.getField "distance").bind Json.asNum
  let duration ← (j.getField "duration").bind Json.asNum
  let ty ← (j.getField "type").bind Json.asStr
  let description ← (j.getField "description").bind Json.asStr
  let base : Workout :=
    { dateJson := dateJson, id := id, coords := coords,
      distance := distance, duration := duration }
  match ty with
  | "running" => do
      let cadence ← (j.getField "cadence").bind Json.asNum
      let pace ← (j.getField "pace").bind Json.asNum
      pure (.running base cadence pace description)
  | "cycling" => do
      let elevation ← (j.getField "elevation").bind Json.asNum
      let speed ← (j.getField "speed").bind Json.asNum
      pure (.cycling base elevation speed description)
  | _ => none

/-- Decode a parsed JSON value as the persisted workout array. -/
def workoutsOfJson : Json → Option (List Entry)
  | .arr elems => elems.mapM entryOfJson
  | _ => none

/-- The content of `localStorage` under the key `'workouts'`. -/
inductive Stored where
  | absent
  | malformed
  | value (j : Json)

/-- `JSON.parse(localStorage.getItem('workouts'))`: an absent key gives
`JSON.parse(null)` which yields `null`; a malformed string throws. -/
def jsonParseStored : Stored → Except Unit Json
  | .absent => .ok .null
  | .malformed => .error ()
  | .value j => .ok j

/-- `_setLocalStorage`: `localStorage.setItem('workouts',
JSON.stringify(this.#workouts))`, overwriting any prior value. -/
def setLocalStorage (workouts : List Entry) : Stored :=
  .value (.arr (workouts.map Entry.toJson))

/-- Outcome of `_getLocalStorage` on a fresh `App` (whose `#workouts`
starts `[]`). -/
inductive LoadResult where
  | raised
  | loaded (workouts : List Entry)
  | garbage (j : Json)

/-- The parse/assign steps of `_getLocalStorage` (lines 328-336, the
spec's PersistenceAdapter `load()`): parse the stored value
(propagating a parse error — there is no try/catch), return with the
store still empty when the parsed data is falsy, otherwise assign the
parsed data to `#workouts` unvalidated (`garbage` when it is not a
persisted workout array). -/
def getLocalStorage (stored : Stored) : LoadResult :=
  match jsonParseStored stored with
  | .error _ => .raised
  | .ok data =>
      if data.truthy then
        match workoutsOfJson data with
        | some workouts => .loaded workouts
        | none => .garbage data
      else .loaded []

/-- Whether `_renderWorkout` throws on a restored array element `w`:
reading `w.type` throws on `null`; when `w.type === 'running'`, the
only method call of the template, `workout.pace.toFixed(1)`, throws
unless `pace` is a number. Every other element only has its properties
interpolated into the html string, which never throws (absent
properties read as `undefined`). -/
def renderWorkoutThrows (w : Json) : Bool :=
  match w with
  | .null => true
  | .obj fields =>
      match fields.lookup "type" with
      | some (.str "running") =>
          match fields.lookup "pace" with
          | some (.num _) => false
          | _ => true
      | _ => false
  | _ => false

/-- `_getLocalStorage` in full (lines 328-340): the parse/assign steps
above followed by `this.#workouts.forEach(w => this._renderWorkout(w))`.
A truthy non-array has no `forEach` (uncaught TypeError), and an array
element on which rendering throws (see `renderWorkoutThrows`) also
raises; elements this program persisted always render. -/
def getLocalStorageAndRender (stored : Stored) : LoadResult :=
  match jsonParseStored stored with
  | .error _ => .raised
  | .ok data =>
      if data.truthy then
        match data with
        | .arr elems =>
            if elems.any renderWorkoutThrows then .raised
            else
              match workoutsOfJson data with
              | some workouts => .loaded workouts
              | none => .garbage data
        | _ => .raised
      else .loaded []

/-- `reset`: `localStorage.removeItem('workouts')` (the page reload that
follows re-runs startup). -/
def resetStorage (_stored : Stored) : Stored :=
  .absent

/-!
The App controller: the in-memory `#workouts` array, the stored value,
and the event handlers the claims are about.
-/

/-- The mutable state of the `App` relevant to the claims: the private
`#workouts` array and the `localStorage` content. -/
structure AppState where
  workouts : List Entry
  storage : Stored

/-- `this.#workouts.find(w => w.id === id)` (the spec's
`EntryStore.findById`): linear scan, `undefined` (= `none`) when no
entry matches. -/
def findById (workouts : List Entry) (id : String) : Option Entry :=
  workouts.find? (fun w => w.id == id)

/-- Outcome of `_moveToPopup`. -/
inductive MoveResult where
  | ignored
  | moved (coords : ℚ × ℚ)
  | raised
deriving DecidableEq, Repr

/-- `_moveToPopup`: `clickedId` is `dataset.id` of the closest
`.workout` ancestor of the click target (`none` when there is none, in
which case the handler returns early). `mapReady` is whether `_loadMap`
ever ran (geolocation success): when it did not, `this.#map` is still
`undefined` and evaluating `this.#map.setView` throws an uncaught
TypeError before the arguments are looked at. When the map is ready but
the lookup finds no entry, `workout` is `undefined` and reading
`workout.coords` throws an uncaught TypeError. -/
def moveToPopup (mapReady : Bool) (workouts : List Entry)
    (clickedId : Option String) : MoveResult :=
  match clickedId with
  | none => .ignored
  | some id =>
      if !mapReady then .raised
      else
        match findById workouts id with
        | some w => .moved w.coords
        | none => .raised

/-- `validInputs(...inputs)`: every input is a finite number. -/
def validInputs (inputs : List JSNum) : Bool :=
  inputs.all JSNum.isFinite

/-- `allPositive(...inputs)`: every input satisfies `inp > 0`. -/
def allPositive (inputs : List JSNum) : Bool :=
  inputs.all JSNum.gtZero

/-- The value of the kind selector (`inputType.value`): the form's
select element offers exactly the options `'running'` and `'cycling'`. -/
inductive FormKind where
  | running
  | cycling
deriving DecidableEq, Repr

/-- Outcome of a form submission. -/
inductive SubmitResult where
  | alerted
  | added (w : Entry)
deriving DecidableEq, Repr

/-- `_newWorkout`: read the form fields (already coerced by unary `+`,
so given here as `JSNum`), validate, and on success construct the
entry, push it onto `#workouts` and write the whole array to
`localStorage`; on validation failure alert and return with the state
untouched. -/
def newWorkout (st : AppState) (env : Env) (latlng : ℚ × ℚ) (ty : FormKind)
    (distance duration cadence elevation : JSNum) : AppState × SubmitResult :=
  match ty with
  | .running =>
      if !(validInputs [distance, duration, cadence]) ||
         !(allPositive [distance, duration, cadence]) then
        (st, .alerted)
      else
        let w := mkRunning env latlng distance.toQ duration.toQ cadence.toQ
        ({ workouts := st.workouts ++ [w],
           storage := setLocalStorage (st.workouts ++ [w]) }, .added w)
  | .cycling =>
      if !(validInputs [distance, duration, elevation]) ||
         !(allPositive [distance, duration]) then
        (st, .alerted)
      else
        let w := mkCycling env latlng distance.toQ duration.toQ elevation.toQ
        ({ workouts := st.workouts ++ [w],
           storage := setLocalStorage (st.workouts ++ [w]) }, .added w)

/-- A concrete construction environment used in witnesses. -/
def env0 : Env :=
  { nowMs := 1700000000000, month := 10, day := 14,
    dateJson := "2023-11-14T22:13:20.000Z" }

/-- Concrete entries (distinct creation times, hence distinct ids) used
in witnesses. -/
def e1 : Entry := mkRunning { nowMs := 1001, month := 0, day := 1, dateJson := "d1" } (1, 1) 5 10 100

def e2 : Entry := mkCycling { nowMs := 1002, month := 1, day := 2, dateJson := "d2" } (2, 2) 20 60 150

def e3 : Entry := mkRunning { nowMs := 1003, month := 2, day := 3, dateJson := "d3" } (3, 3) 7 30 90

/-- Two entries created in the same millisecond (same `env0`): they
receive equal ids. -/
def eDupA : Entry := mkRunning env0 (1, 1) 5 24 170

def eDupB : Entry := mkCycling env0 (2, 2) 20 60 150

/-- Concrete app states used in witnesses. -/
def st0 : AppState := { workouts := [], storage := .absent }

def st1 : AppState := { workouts := [e1], storage := setLocalStorage [e1] }

/-!
Helper lemmas.
-/

theorem string_length_drop (s : String) (n : Nat) :
    (s.drop n).length = s.length - n := by
  rw [String.drop_eq]
  rw [show (String.mk (s.data.drop n)).length = (s.data.drop n).length from rfl]
  rw [List.length_drop]
  rfl

theorem string_take_append_drop (s : String) (n : Nat) :
    s.take n ++ s.drop n = s := by
  apply String.ext
  rw [String.data_append, String.data_take, String.data_drop]
  exact List.take_append_drop n s.data

theorem entryOfJson_toJson (e : Entry) : entryOfJson e.toJson = some e := by
  cases e <;> rfl

theorem workoutsOfJson_map_toJson (es : List Entry) :
    workoutsOfJson (.arr (es.map Entry.toJson)) = some es := by
  induction es with
  | nil => rfl
  | cons e es ih =>
      simp only [workoutsOfJson, List.map_cons, List.mapM_cons] at *
      rw [entryOfJson_toJson]
      simp only [Option.pure_def, Option.bind_eq_bind, Option.some_bind] at *
      rw [ih]
      rfl

theorem findById_append_first (l1 : List Entry) (a : Entry) (l2 : List Entry)
    (h : ∀ x ∈ l1, x.id ≠ a.id) : findById (l1 ++ a :: l2) a.id = some a := by
  induction l1 with
  | nil =>
      simp only [List.nil_append, findById]
      exact List.find?_cons_of_pos _ (by simp)
  | cons x l1 ih =>
      have hx : x.id ≠ a.id := h x (by simp)
      simp only [List.cons_append, findById]
      rw [List.find?_cons_of_neg _ (by simpa using hx)]
      exact ih fun y hy => h y (by simp [hy])

theorem findById_eq_none (ws : List Entry) (id : String)
    (h : ∀ x ∈ ws, x.id ≠ id) : findById ws id = none := by
  induction ws with
  | nil => rfl
  | cons x ws ih =>
      simp only [findById]
      rw [List.find?_cons_of_neg _ (by simpa using h x (by simp))]
      exact ih fun y hy => h y (by simp [hy])

theorem run_cond (a b c : JSNum) :
    (!(validInputs [a, b, c]) || !(allPositive [a, b, c])) = false ↔
    ∃ qa qb qc : ℚ, a = .finite qa ∧ b = .finite qb ∧ c = .finite qc ∧
      0 < qa ∧ 0 < qb ∧ 0 < qc := by
  rcases a <;> rcases b <;> rcases c <;>
    simp [validInputs, allPositive, JSNum.isFinite, JSNum.gtZero, and_assoc]

theorem cyc_cond (a b c : JSNum) :
    (!(validInputs [a, b, c]) || !(allPositive [a, b])) = false ↔
    ∃ qa qb qc : ℚ, a = .finite qa ∧ b = .finite qb ∧ c = .finite qc ∧
      0 < qa ∧ 0 < qb := by
  rcases a <;> rcases b <;> rcases c <;>
    simp [validInputs, allPositive, JSNum.isFinite, JSNum.gtZero, and_assoc]

theorem load_save_aux (es : List Entry) :
    getLocalStorage (setLocalStorage es) = .loaded es := by
  show getLocalStorage (.value (.arr (es.map Entry.toJson))) = .loaded es
  simp only [getLocalStorage, jsonParseStored, Json.truthy, if_true]
  rw [workoutsOfJson_map_toJson]

/-!
The claims.
-/

/-- Claim C1: every Cycling entry constructed from positive finite
`distanceKm` and `durationMin` has derived `speedKmPerH` equal to
`distanceKm / durationMin / 60` (the literal double-division formula of
`calculateSpeed`). -/
theorem cycling_speed_formula (env : Env) (coords : ℚ × ℚ)
    (distance duration elevation : ℚ)
    (hd : 0 < distance) (hu : 0 < duration) :
    (mkCycling env coords distance duration elevation).speedKmPerH =
      some (distance / duration / 60) :=
  rfl

/-- Witness for C1: distance 20, duration 60 gives speed
20/60/60 = 1/180 (≈ 0.00556). -/
theorem cycling_speed_formula_witness :
    (mkCycling env0 (0, 0) 20 60 100).speedKmPerH = some (1 / 180) := by
  rw [cycling_speed_formula env0 (0, 0) 20 60 100 (by norm_num) (by norm_num)]
  norm_num

/-- Claim C2: every Running entry constructed from positive finite
`distanceKm` and `durationMin` has derived `paceMinPerKm` equal to
`durationMin / distanceKm` (`calculatePace`). -/
theorem running_pace_formula (env : Env) (coords : ℚ × ℚ)
    (distance duration cadence : ℚ)
    (hd : 0 < distance) (hu : 0 < duration) :
    (mkRunning env coords distance duration cadence).paceMinPerKm =
      some (duration / distance) :=
  rfl

/-- Witness for C2: distance 5.2 = 26/5, duration 24 gives pace
24/(26/5) = 60/13 (≈ 4.6154). -/
theorem running_pace_formula_witness :
    (mkRunning env0 (0, 0) (26 / 5) 24 170).paceMinPerKm = some (60 / 13) := by
  rw [running_pace_formula env0 (0, 0) (26 / 5) 24 170 (by norm_num) (by norm_num)]
  norm_num

/-- Claim C5: `save` followed by `load` reproduces the same ordered
sequence of entries, all derived fields carried as plain data through
serialization, for any sequence of entries. -/
theorem save_load_roundtrip (es : List Entry) :
    getLocalStorage (setLocalStorage es) = .loaded es :=
  load_save_aux es

/-- Claim C8: after `reset`, the persisted key is removed, so a
subsequent `load` returns the empty sequence whatever was stored
before. -/
theorem reset_then_load_empty (s : Stored) :
    getLocalStorage (resetStorage s) = .loaded [] :=
  rfl

/-- Claim C6: in a store whose entries have pairwise-distinct ids,
`findById` with the id of any one of them returns that entry, and
`findById` with an id held by no entry returns the not-found signal
(`none`, JavaScript `undefined`). -/
theorem findById_lookup (ws : List Entry) :
    ((ws.map Entry.id).Nodup → ∀ a ∈ ws, findById ws a.id = some a) ∧
    (∀ id, (∀ x ∈ ws, x.id ≠ id) → findById ws id = none) := by
  constructor
  · intro hnd a ha
    obtain ⟨l1, l2, rfl⟩ := List.append_of_mem ha
    apply findById_append_first
    intro x hx heq
    have h1 : (l1.map Entry.id ++ (a :: l2).map Entry.id).Nodup := by
      simpa using hnd
    have hdis := List.disjoint_of_nodup_append h1
    exact hdis (List.mem_map_of_mem Entry.id hx)
      (by simp [show a.id = x.id from heq.symm])
  · exact findById_eq_none ws

/-- Witness for C6: append the three entries `e1`, `e2`, `e3` (distinct
ids), look up the second entry's id (found) and an unknown id (not
found). -/
theorem findById_lookup_witness :
    findById [e1, e2, e3] e2.id = some e2 ∧
    findById [e1, e2, e3] "0000000000" = none := by
  constructor
  · exact (findById_lookup [e1, e2, e3]).1 (by decide)
      e2 (List.mem_cons_of_mem e1 (List.mem_cons_self e2 [e3]))
  · exact (findById_lookup [e1, e2, e3]).2 "0000000000" (by decide)

/-- Claim C10: an entry's id is the last 10 digits of the decimal
millisecond creation timestamp (both constructors take it from
`makeId`, which keeps a length-10 suffix of the timestamp string), so
entries created in the same millisecond receive equal ids; lookup by a
duplicated id returns the earliest-appended entry bearing it. -/
theorem id_last_digits_and_duplicates :
    (∀ t : Nat, 10 ≤ (toString t).length →
        (makeId t).length = 10 ∧
        (toString t).take ((toString t).length - 10) ++ makeId t = toString t) ∧
    (∀ env coords distance duration metric,
        (mkRunning env coords distance duration metric).id = makeId env.nowMs ∧
        (mkCycling env coords distance duration metric).id = makeId env.nowMs) ∧
    (∀ (l1 : List Entry) (a : Entry) (l2 : List Entry),
        (∀ x ∈ l1, x.id ≠ a.id) → findById (l1 ++ a :: l2) a.id = some a) := by
  refine ⟨?_, ?_, findById_append_first⟩
  · intro t ht
    constructor
    · show ((toString t).drop ((toString t).length - 10)).length = 10
      rw [string_length_drop]
      omega
    · exact string_take_append_drop (toString t) ((toString t).length - 10)
  · intro env coords distance duration metric
    exact ⟨rfl, rfl⟩

/-- Witness for C10: a 13-digit timestamp is truncated to a 10-digit
id; `eDupA` and `eDupB` are created in the same millisecond (`env0`),
have equal ids, and lookup by that id returns the earliest-appended
(`eDupA`). -/
theorem id_last_digits_and_duplicates_witness :
    (makeId 1234567890123).length = 10 ∧
    eDupA.id = eDupB.id ∧
    findById [eDupA, eDupB] eDupA.id = some eDupA := by
  refine ⟨(id_last_digits_and_duplicates.1 1234567890123 (by decide)).1, ?_, ?_⟩
  · show (mkRunning env0 (1, 1) 5 24 170).id = (mkCycling env0 (2, 2) 20 60 150).id
    rw [(id_last_digits_and_duplicates.2.1 env0 (1, 1) 5 24 170).1,
      (id_last_digits_and_duplicates.2.1 env0 (2, 2) 20 60 150).2]
  · exact id_last_digits_and_duplicates.2.2 [] eDupA [eDupB]
      (by intro x hx; cases hx)

/-- Counterexample to claim C4: on a malformed stored value
(`JSON.parse` throws, and `_getLocalStorage` has no try/catch) `load`
raises instead of yielding an empty sequence. -/
theorem load_malformed_raises : getLocalStorage .malformed = .raised :=
  rfl

/-- Claim C4 as amended: `load` yields the empty sequence when the key
is absent or the parsed value is JSON-falsy, yields the saved sequence
for any value `save` produced, assigns other parseable values to the
store unvalidated — but on a stored value that is not valid JSON it
raises (the parse error is not swallowed). -/
theorem load_characterization (s : Stored) :
    (s = .absent → getLocalStorage s = .loaded []) ∧
    (∀ es, s = setLocalStorage es → getLocalStorage s = .loaded es) ∧
    (∀ j, s = .value j → j.truthy = false → getLocalStorage s = .loaded []) ∧
    (∀ j, s = .value j → j.truthy = true → workoutsOfJson j = none →
      getLocalStorage s = .garbage j) ∧
    (s = .malformed → getLocalStorage s = .raised) := by
  refine ⟨?_, ?_, ?_, ?_, ?_⟩
  · rintro rfl; rfl
  · rintro es rfl; exact load_save_aux es
  · rintro j rfl hf
    simp [getLocalStorage, jsonParseStored, hf]
  · rintro j rfl ht hw
    simp [getLocalStorage, jsonParseStored, ht, hw]
  · rintro rfl; rfl

/-- Witness for C4 (amended): an absent key loads the empty sequence
and a malformed value raises. -/
theorem load_characterization_witness :
    getLocalStorage .absent = .loaded [] ∧
    getLocalStorage .malformed = .raised :=
  ⟨(load_characterization .absent).1 rfl,
   (load_characterization .malformed).2.2.2.2 rfl⟩

/-- Counterexample to claim C7: even with the map initialized, a list
click whose id resolves to no stored entry reaches `workout.coords` on
`undefined` and raises an uncaught TypeError. -/
theorem move_unknown_id_raises :
    moveToPopup true [] (some "0000000000") = .raised :=
  rfl

theorem renderWorkoutThrows_toJson (e : Entry) :
    renderWorkoutThrows e.toJson = false := by
  cases e <;> rfl

/-- Claim C7 as amended: validation failures are recovered locally (the
submission alerts and returns the state unchanged), clicks outside a
workout element are ignored, and startup on data this program persisted
never raises; but not every error is recovered: startup load raises on
a stored value that is not valid JSON, on a truthy parseable value that
is not an array (no `forEach`), and on an array element rendering
cannot handle; a list click whose id resolves to no stored entry
raises; and any workout list click raises when the map never
initialized (the geolocation-failure session). -/
theorem error_recovery_characterization :
    (∀ st env latlng ty distance duration cadence elevation,
      (newWorkout st env latlng ty distance duration cadence elevation).2
          = .alerted →
        newWorkout st env latlng ty distance duration cadence elevation
          = (st, .alerted)) ∧
    (∀ mapReady ws, moveToPopup mapReady ws none = .ignored) ∧
    getLocalStorageAndRender .malformed = .raised ∧
    (∀ j, j.truthy = true → (∀ elems, j ≠ .arr elems) →
      getLocalStorageAndRender (.value j) = .raised) ∧
    (∀ elems w, w ∈ elems → renderWorkoutThrows w = true →
      getLocalStorageAndRender (.value (.arr elems)) = .raised) ∧
    (∀ ws id, findById ws id = none →
      moveToPopup true ws (some id) = .raised) ∧
    (∀ ws id, moveToPopup false ws (some id) = .raised) ∧
    (∀ es, getLocalStorageAndRender (setLocalStorage es) = .loaded es) := by
  refine ⟨?_, fun mapReady ws => rfl, rfl, ?_, ?_, ?_, fun ws id => rfl, ?_⟩
  · intro st env latlng ty distance duration cadence elevation h
    cases ty with
    | running =>
        rcases hc : (!(validInputs [distance, duration, cadence]) ||
            !(allPositive [distance, duration, cadence])) with _ | _
        · simp [newWorkout, hc] at h
        · simp [newWorkout, hc]
    | cycling =>
        rcases hc : (!(validInputs [distance, duration, elevation]) ||
            !(allPositive [distance, duration])) with _ | _
        · simp [newWorkout, hc] at h
        · simp [newWorkout, hc]
  · intro j ht hna
    cases j with
    | null => simp [Json.truthy] at ht
    | bool b => simp [getLocalStorageAndRender, jsonParseStored, ht]
    | num q => simp [getLocalStorageAndRender, jsonParseStored, ht]
    | str s => simp [getLocalStorageAndRender, jsonParseStored, ht]
    | arr elems => exact absurd rfl (hna elems)
    | obj fields => simp [getLocalStorageAndRender, jsonParseStored, ht]
  · intro elems w hw hthrow
    have ha : elems.any renderWorkoutThrows = true :=
      List.any_eq_true.mpr ⟨w, hw, hthrow⟩
    simp [getLocalStorageAndRender, jsonParseStored, Json.truthy, ha]
  · intro ws id h
    simp [moveToPopup, h]
  · intro es
    have ha : (es.map Entry.toJson).any renderWorkoutThrows = false := by
      rw [List.any_eq_false]
      intro w hw
      obtain ⟨e, _, rfl⟩ := List.mem_map.mp hw
      simp [renderWorkoutThrows_toJson]
    simp only [getLocalStorageAndRender, setLocalStorage, jsonParseStored,
      Json.truthy, ha, Bool.false_eq_true, if_false, if_true]
    rw [workoutsOfJson_map_toJson]

/-- Witness for C7 (amended): a rejected submission at a concrete state
leaves it unchanged; a click on an unknown id raises with the map
ready; a click on a known id raises with the map uninitialized; a
truthy non-array stored value raises at startup. -/
theorem error_recovery_witness :
    newWorkout st0 env0 (0, 0) .running (.finite 0) (.finite 5) (.finite 10)
        .nan = (st0, .alerted) ∧
    moveToPopup true [e1] (some "0000000000") = .raised ∧
    moveToPopup false [e1] (some e1.id) = .raised ∧
    getLocalStorageAndRender (.value (.num 5)) = .raised := by
  refine ⟨?_, ?_, ?_, ?_⟩
  · exact error_recovery_characterization.1 st0 env0 (0, 0) .running
      (.finite 0) (.finite 5) (.finite 10) .nan (by decide)
  · exact error_recovery_characterization.2.2.2.2.2.1 [e1] "0000000000"
      (by decide)
  · exact error_recovery_characterization.2.2.2.2.2.2.1 [e1] e1.id
  · exact error_recovery_characterization.2.2.2.1 (.num 5) (by decide)
      (fun elems h => Json.noConfusion h)

/-- Claim C3: a form submission is rejected (alert, the spec's
ValidationError) exactly when some supplied numeric field is not finite
or `distance <= 0` or `duration <= 0` or, for Running only,
`cadence <= 0`; Cycling's elevation is checked for finiteness only, so
any finite elevation — zero or negative included — is accepted. -/
theorem validation_characterization (st : AppState) (env : Env)
    (latlng : ℚ × ℚ) (distance duration cadence elevation : JSNum) :
    ((newWorkout st env latlng .running distance duration cadence elevation).2
        = .alerted ↔
      ¬ ∃ qd qu qc : ℚ, distance = .finite qd ∧ duration = .finite qu ∧
          cadence = .finite qc ∧ 0 < qd ∧ 0 < qu ∧ 0 < qc) ∧
    ((newWorkout st env latlng .cycling distance duration cadence elevation).2
        = .alerted ↔
      ¬ ∃ qd qu qe : ℚ, distance = .finite qd ∧ duration = .finite qu ∧
          elevation = .finite qe ∧ 0 < qd ∧ 0 < qu) ∧
    (∀ qd qu qe : ℚ, 0 < qd → 0 < qu →
      (newWorkout st env latlng .cycling (.finite qd) (.finite qu) cadence
          (.finite qe)).2 = .added (mkCycling env latlng qd qu qe)) := by
  refine ⟨?_, ?_, ?_⟩
  · rcases hc : (!(validInputs [distance, duration, cadence]) ||
        !(allPositive [distance, duration, cadence])) with _ | _
    · have hex := (run_cond distance duration cadence).mp hc
      have hr : (newWorkout st env latlng .running distance duration cadence
          elevation).2 = .added (mkRunning env latlng distance.toQ duration.toQ
            cadence.toQ) := by
        simp [newWorkout, hc]
      rw [hr]
      exact iff_of_false (fun h => SubmitResult.noConfusion h) (fun hn => hn hex)
    · have hr : (newWorkout st env latlng .running distance duration cadence
          elevation).2 = .alerted := by
        simp [newWorkout, hc]
      rw [hr]
      refine iff_of_true rfl ?_
      intro hex
      have hf := (run_cond distance duration cadence).mpr hex
      rw [hf] at hc
      exact Bool.noConfusion hc
  · rcases hc : (!(validInputs [distance, duration, elevation]) ||
        !(allPositive [distance, duration])) with _ | _
    · have hex := (cyc_cond distance duration elevation).mp hc
      have hr : (newWorkout st env latlng .cycling distance duration cadence
          elevation).2 = .added (mkCycling env latlng distance.toQ duration.toQ
            elevation.toQ) := by
        simp [newWorkout, hc]
      rw [hr]
      exact iff_of_false (fun h => SubmitResult.noConfusion h) (fun hn => hn hex)
    · have hr : (newWorkout st env latlng .cycling distance duration cadence
          elevation).2 = .alerted := by
        simp [newWorkout, hc]
      rw [hr]
      refine iff_of_true rfl ?_
      intro hex
      have hf := (cyc_cond distance duration elevation).mpr hex
      rw [hf] at hc
      exact Bool.noConfusion hc
  · intro qd qu qe hd hu
    have hc : (!(validInputs [JSNum.finite qd, JSNum.finite qu, JSNum.finite qe])
        || !(allPositive [JSNum.finite qd, JSNum.finite qu])) = false :=
      (cyc_cond _ _ _).mpr ⟨qd, qu, qe, rfl, rfl, rfl, hd, hu⟩
    simp [newWorkout, hc, JSNum.toQ]

/-- Witness for C3: distance 0 is rejected for Running; a Cycling
submission with negative elevation -3 (and valid distance 5, duration
10) is accepted even while the cadence field holds NaN. -/
theorem validation_characterization_witness :
    (newWorkout st0 env0 (0, 0) .running (.finite 0) (.finite 1) (.finite 1)
        .nan).2 = .alerted ∧
    (newWorkout st0 env0 (0, 0) .cycling (.finite 5) (.finite 10) .nan
        (.finite (-3))).2 = .added (mkCycling env0 (0, 0) 5 10 (-3)) := by
  constructor
  · refine (validation_characterization st0 env0 (0, 0) _ _ _ _).1.mpr ?_
    rintro ⟨qd, qu, qc, h1, h2, h3, h4, h5, h6⟩
    rw [show qd = 0 from ((JSNum.finite.injEq 0 qd).mp h1).symm] at h4
    exact lt_irrefl 0 h4
  · exact (validation_characterization st0 env0 (0, 0) .nan .nan .nan .nan).2.2
      5 10 (-3) (by norm_num) (by norm_num)

/-- Claim C9: when a form submission fails validation the operation is
atomic — the in-memory workout list and the persisted value are both
exactly as before: nothing is appended and no save occurs. -/
theorem alerted_preserves_state (st : AppState) (env : Env) (latlng : ℚ × ℚ)
    (ty : FormKind) (distance duration cadence elevation : JSNum)
    (h : (newWorkout st env latlng ty distance duration cadence elevation).2
      = .alerted) :
    (newWorkout st env latlng ty distance duration cadence elevation).1.workouts
        = st.workouts ∧
    (newWorkout st env latlng ty distance duration cadence elevation).1.storage
        = st.storage := by
  cases ty with
  | running =>
      rcases hc : (!(validInputs [distance, duration, cadence]) ||
          !(allPositive [distance, duration, cadence])) with _ | _
      · simp [newWorkout, hc] at h
      · simp [newWorkout, hc]
  | cycling =>
      rcases hc : (!(validInputs [distance, duration, elevation]) ||
          !(allPositive [distance, duration])) with _ | _
      · simp [newWorkout, hc] at h
      · simp [newWorkout, hc]

/-- Witness for C9: on state `st1` (one stored entry) a Running
submission with distance 0 alerts and leaves both the list and the
stored value untouched. -/
theorem alerted_preserves_state_witness :
    (newWorkout st1 env0 (0, 0) .running (.finite 0) (.finite 5) (.finite 10)
        .nan).1.workouts = st1.workouts ∧
    (newWorkout st1 env0 (0, 0) .running (.finite 0) (.finite 5) (.finite 10)
        .nan).1.storage = st1.storage :=
  alerted_preserves_state st1 env0 (0, 0) .running (.finite 0) (.finite 5)
    (.finite 10) .nan (by decide)
